import Mathlib

/-
Verification of the coordination core of the live-share-sdk fork.

The development shallowly embeds:
- the container join coordinator of TeamsFluidClient (getOrCreateContainer /
  createNewContainer from the TeamsFluidClient source file), with the remote
  collaborators (getFluidContainerId, setFluidContainerId, container.attach)
  replaced by finite scripts of their successive answers, and with a trace of
  the externally observable events each run performs;
- RoleVerifier.verifyRolesAllowed / getClientRoles / registerClientId from
  packages/live-share/src/internals/RoleVerifier.ts;
- the single-flight TTL cache (RequestCache) and the bounded backoff poller
  (waitForResult, called pollUntil in the specification), whose source files
  are not part of the sources at hand; they are modelled from the
  specification text, as their doc comments state.
-/

namespace LiveShare

/-! ## Bounded backoff poller -/

/-- Modelled from the spec: the source of `waitForResult` (internals/utils) is
not among the sources at hand; this follows spec section 4.2, contract
`pollUntil(operation, isAcceptable, onTimeout, schedule)`. The operation is
embedded as a script `op` giving the outcome of its i-th invocation. The
result is the poll outcome together with the list of waits performed (in
order) and the number of invocations of the operation. An invocation that
fails propagates its failure at once; an unacceptable result consumes one
schedule entry per retry; an exhausted schedule yields the onTimeout error. -/
def pollUntil {E : Type} {α : Type} (op : Nat → Except E α) (isAcceptable : α → Bool)
    (onTimeout : Unit → E) : List Nat → Nat → Except E α × List Nat × Nat
  | [], i =>
    match op i with
    | .error e => (.error e, [], 1)
    | .ok v =>
      if isAcceptable v then (.ok v, [], 1)
      else (.error (onTimeout ()), [], 1)
  | delay :: rest, i =>
    match op i with
    | .error e => (.error e, [], 1)
    | .ok v =>
      if isAcceptable v then (.ok v, [], 1)
      else
        let r := pollUntil op isAcceptable onTimeout rest (i + 1)
        (r.1, delay :: r.2.1, r.2.2 + 1)

/-! ## Error taxonomy (spec section 7) -/

/-- Errors surfaced by the role verification service and its collaborators:
invalid argument (fail fast, no retry), timeout (schedule or try count
exhausted), and upstream failure of a remote collaborator. -/
inductive VError : Type
  | invalidArgument (message : String)
  | timeout (message : String)
  | upstream (message : String)
deriving DecidableEq, Repr

/-! ## Single-flight TTL cache -/

/-- Modelled from the spec: the source of `RequestCache` is not among the
sources at hand; this follows spec sections 4.1 and 9: a mapping from key to a
state tagged Pending (a shared in-flight future with its registered waiters)
or Ready (value with expiry); Empty is the absence of an entry. -/
inductive EntryState (α : Type) : Type
  | pending (waiters : Nat)
  | ready (value : α) (expiresAt : Nat)
deriving DecidableEq, Repr

/-- Association-list lookup for cache entries. -/
def findEntry {α : Type} : List (String × EntryState α) → String → Option (EntryState α)
  | [], _ => none
  | (k, e) :: rest, key => if k = key then some e else findEntry rest key

/-- Association-list update (replaces an existing binding, else appends). -/
def setEntry {α : Type} : List (String × EntryState α) → String → EntryState α → List (String × EntryState α)
  | [], key, e => [(key, e)]
  | (k, e0) :: rest, key, e => if k = key then (key, e) :: rest else (k, e0) :: setEntry rest key e

/-- Association-list removal (evicts every binding of the key). -/
def removeEntry {α : Type} : List (String × EntryState α) → String → List (String × EntryState α)
  | [], _ => []
  | (k, e) :: rest, key => if k = key then removeEntry rest key else (k, e) :: removeEntry rest key

/-- Modelled from the spec: the single-flight TTL cache instance, a fixed
per-instance lifetime plus the per-key entry states. -/
structure RequestCache (α : Type) : Type where
  lifetime : Nat
  entries : List (String × EntryState α)
deriving DecidableEq, Repr

/-- What a caller arriving at the cache observes: a live cached value, joining
an already in-flight resolution, or being the caller that starts the producer. -/
inductive StartOutcome (α : Type) : Type
  | hit (value : α)
  | joined
  | producerStarted
deriving DecidableEq, Repr

/-- Modelled from the spec: a caller arrives at the cache for `key` at time
`now`. A live (non-expired) Ready entry is a hit and invokes nothing; an
expired Ready entry is lazily evicted and the caller starts the producer; a
Pending entry registers the caller as one more waiter on the shared future;
an absent entry starts the producer with this caller as the first waiter. -/
def startRequest {α : Type} (c : RequestCache α) (key : String) (now : Nat) :
    StartOutcome α × RequestCache α :=
  match findEntry c.entries key with
  | some (.ready v expiresAt) =>
    if now < expiresAt then
      (.hit v, c)
    else
      (.producerStarted, { c with entries := setEntry c.entries key (.pending 1) })
  | some (.pending w) =>
    (.joined, { c with entries := setEntry c.entries key (.pending (w + 1)) })
  | none =>
    (.producerStarted, { c with entries := setEntry c.entries key (.pending 1) })

/-- Modelled from the spec: the in-flight producer for `key` completes with
`res`; every registered waiter receives this one outcome. On success the value
is stored with expiry `now + lifetime`; on failure the in-flight marker is
cleared and nothing is cached. Returns the number of waiters the outcome was
delivered to, together with the updated cache. -/
def completeRequest {α : Type} (c : RequestCache α) (key : String)
    (res : Except VError α) (now : Nat) : Nat × RequestCache α :=
  match findEntry c.entries key with
  | some (.pending w) =>
    match res with
    | .ok v => (w, { c with entries := setEntry c.entries key (.ready v (now + c.lifetime)) })
    | .error _ => (w, { c with entries := removeEntry c.entries key })
  | _ => (0, c)

/-- `n` callers for the same key all arrive (cooperatively, one after the
other) before the producer resolves. Returns how many of them started a
producer, together with the cache state after all arrivals. -/
def arriveMany {α : Type} (key : String) (now : Nat) :
    RequestCache α → Nat → Nat × RequestCache α
  | c, 0 => (0, c)
  | c, n + 1 =>
    let r := startRequest c key now
    let s := arriveMany key now r.2 n
    match r.1 with
    | .producerStarted => (s.1 + 1, s.2)
    | _ => (s.1, s.2)

/-- Modelled from the spec: a single sequential `cacheRequest(key, producer)`
call under cooperative scheduling, built from `startRequest` and
`completeRequest`: a hit returns the cached value, a miss runs the producer to
completion and records its outcome. A Pending entry means the caller would
attach to a future resolved by another task; that cross-task completion is not
representable in a single sequential call, so the result is `none` there (the
sequential theorems only run it on caches without a pending entry for the
key). The Bool records whether this call invoked the producer. -/
def cacheRequest {α : Type} (c : RequestCache α) (key : String)
    (producer : Unit → Except VError α) (now : Nat) :
    Option (Except VError α × RequestCache α × Bool) :=
  match startRequest c key now with
  | (.hit v, c2) => some (.ok v, c2, false)
  | (.joined, _) => none
  | (.producerStarted, c2) =>
    let res := producer ()
    some (res, (completeRequest c2 key res now).2, true)

/-! ## Role verification service (RoleVerifier.ts) -/

/-- Role identifiers are opaque tokens compared by membership only (the
UserMeetingRole enum is declared outside the sources at hand); embedded as
strings. -/
abbrev UserMeetingRole := String

/-- `const EXPONENTIAL_BACKOFF_SCHEDULE = [100, 200, 200, 400, 600]` from
RoleVerifier.ts. -/
def EXPONENTIAL_BACKOFF_SCHEDULE : List Nat := [100, 200, 200, 400, 600]

/-- `const CACHE_LIFETIME = 60 * 60 * 1000` from RoleVerifier.ts. -/
def CACHE_LIFETIME : Nat := 60 * 60 * 1000

/-- What one invocation of the remote role collaborator
(api.registerClientId / api.getClientRoles) yields on success: an array of
roles, or a non-array sentinel (for example an absent userRoles field) that
the success predicate `Array.isArray(result)` rejects as not ready yet. -/
inductive RegisterApiResult : Type
  | roles (value : List UserMeetingRole)
  | notAnArray
deriving DecidableEq, Repr

/-- The success predicate `(result) => Array.isArray(result)` used by both
RoleVerifier producers. -/
def isArray : RegisterApiResult → Bool
  | .roles _ => true
  | .notAnArray => false

/-- Extracts the array from an accepted collaborator result; on the non-array
sentinel (never accepted by `isArray`) it falls back to the empty list. -/
def RegisterApiResult.toRoles : RegisterApiResult → List UserMeetingRole
  | .roles v => v
  | .notAnArray => []

/-- The producer RoleVerifier.registerClientId hands to its cache: poll the
registration collaborator with the fixed backoff schedule until it returns an
array, timing out with the registration timeout error. `api` is the script of
successive collaborator outcomes for the requested clientId. -/
def registerProducer (api : Nat → Except VError RegisterApiResult) :
    Unit → Except VError (List UserMeetingRole) := fun _ =>
  match (pollUntil api isArray
      (fun _ => VError.timeout "RoleVerifier: timed out registering local client ID")
      EXPONENTIAL_BACKOFF_SCHEDULE 0).1 with
  | .ok v => .ok v.toRoles
  | .error e => .error e

/-- The producer RoleVerifier.getClientRoles hands to its cache; identical
shape, with the role lookup timeout error. -/
def getRolesProducer (api : Nat → Except VError RegisterApiResult) :
    Unit → Except VError (List UserMeetingRole) := fun _ =>
  match (pollUntil api isArray
      (fun _ => VError.timeout "RoleVerifier: timed out getting roles for a remote client ID")
      EXPONENTIAL_BACKOFF_SCHEDULE 0).1 with
  | .ok v => .ok v.toRoles
  | .error e => .error e

/-- RoleVerifier.registerClientId: no validation of clientId; it directly
returns `this._registerRequestCache.cacheRequest(clientId, producer)` where
the producer polls the registration collaborator. `api clientId i` is the
outcome of the i-th collaborator call for that clientId. -/
def registerClientId (cache : RequestCache (List UserMeetingRole))
    (api : String → Nat → Except VError RegisterApiResult) (clientId : String) (now : Nat) :
    Option (Except VError (List UserMeetingRole) × RequestCache (List UserMeetingRole) × Bool) :=
  cacheRequest cache clientId (registerProducer (api clientId)) now

/-- RoleVerifier.getClientRoles: `if (!clientId) throw` (the empty string is
the falsy string), then `this._getRequestCache.cacheRequest(clientId,
producer)`. The thrown exception is embedded as an error result delivered
before any cache or collaborator work (cache unchanged, producer not
invoked). -/
def getClientRoles (cache : RequestCache (List UserMeetingRole))
    (api : String → Nat → Except VError RegisterApiResult) (clientId : String) (now : Nat) :
    Option (Except VError (List UserMeetingRole) × RequestCache (List UserMeetingRole) × Bool) :=
  if clientId = "" then
    some (.error (.invalidArgument "RoleVerifier: called getCLientRoles() without a clientId"),
      cache, false)
  else
    cacheRequest cache clientId (getRolesProducer (api clientId)) now

/-- The body of the `for` loop of RoleVerifier.verifyRolesAllowed: walk
allowedRoles in order and return true at the first role with
`roles.indexOf(role) >= 0`; false after the loop. -/
def checkAllowedLoop (roles : List UserMeetingRole) : List UserMeetingRole → Bool
  | [] => false
  | role :: rest => if roles.contains role then true else checkAllowedLoop roles rest

/-- RoleVerifier.verifyRolesAllowed: `if (!clientId) throw`; then
`if (Array.isArray(allowedRoles) && allowedRoles.length > 0)` fetch the
(cached) roles via getClientRoles and run the membership loop, else return
true. `lookupRoles` abstracts `await this.getClientRoles(clientId)` (its
cached outcome for the given clientId); an absent allowedRoles argument is
`none`. The second component records whether the role lookup was consulted. -/
def verifyRolesAllowed (lookupRoles : String → Except VError (List UserMeetingRole))
    (clientId : String) (allowedRoles : Option (List UserMeetingRole)) :
    Except VError Bool × Bool :=
  if clientId = "" then
    (.error (.invalidArgument "RoleVerifier: called verifyRolesAllowed() without a clientId"),
      false)
  else
    match allowedRoles with
    | some l =>
      if l.length > 0 then
        match lookupRoles clientId with
        | .ok roles => (.ok (checkAllowedLoop roles l), true)
        | .error e => (.error e, true)
      else
        (.ok true, false)
    | none => (.ok true, false)

/-! ## Resource-creation coordinator (TeamsFluidClient) -/

/-- ContainerState values used by the coordinator and by setFluidContainerId
(`notFound`, `alreadyExists`, `added`). -/
inductive ContainerState : Type
  | notFound
  | alreadyExists
  | added
deriving DecidableEq, Repr

/-- IFluidContainerInfo from TeamsLiveAPI.ts, the answer of one
getFluidContainerId lookup. `retryAfter` is in milliseconds. -/
structure IFluidContainerInfo : Type where
  containerState : ContainerState
  containerId : Option String
  shouldCreate : Bool
  retryAfter : Nat
deriving DecidableEq, Repr

/-- JS truthiness of `containerInfo.containerId` in the
`else if (containerInfo.containerId)` branch: an absent id and the empty
string are both falsy. -/
def truthyId : Option String → Option String
  | none => none
  | some s => if s = "" then none else some s

/-- The externally observable events of one coordinator run: a
getFluidContainerId lookup, a timed wait, a client.createContainer call, the
onContainerFirstCreated hook, a container.attach returning the new id, a
setFluidContainerId conditional publish with its answer, a container.dispose,
and a client.getContainer on an existing id. -/
inductive Event : Type
  | lookup
  | wait (ms : Nat)
  | createContainer
  | initHook
  | attach (id : String)
  | trySet (id : String) (ok : Bool)
  | dispose
  | getExisting (id : String)
deriving DecidableEq, Repr

/-- The events the optional onContainerFirstCreated hook contributes:
`if (onInitializeContainer) { onInitializeContainer(container) }`. -/
def initHookEvents (hasHook : Bool) : List Event :=
  if hasHook then [.initHook] else []

/-- What joinContainer returns to the caller: the container (by its id; the
services handle carries no coordination state) and the created flag. -/
structure JoinResult : Type where
  containerId : String
  created : Bool
deriving DecidableEq, Repr

/-- How a coordinator run ends: success with a JoinResult, the
"timed out attempting to create or get container for current context" error,
or exhaustion of one of the finite collaborator scripts (in the source the
corresponding remote call would still be outstanding). -/
inductive Outcome : Type
  | success (result : JoinResult)
  | timeoutError
  | scriptEnd
deriving DecidableEq, Repr

/-- `this.maxContainerLookupTries` default. -/
def maxContainerLookupTries : Nat := 3

/-- TeamsFluidClient.getOrCreateContainer with
TeamsFluidClient.createNewContainer inlined at its single call site (the
source splits the `shouldCreate` branch into the separate method
createNewContainer, whose lost-race path recurses back into
getOrCreateContainer; both recursions re-enter at a fresh lookup, so the pair
is embedded as one recursion on the lookup script). The remote collaborators
are scripts of their successive answers: `lookups` for getFluidContainerId,
`trySets` for setFluidContainerId, `newIds` for container.attach. Returns the
outcome and the event trace.

Source branch by branch, for `info :: lookups` (the awaited lookup):
- `if (containerInfo.shouldCreate)`: createContainer, optional hook, attach to
  get newContainerId, then `if (!await this.setFluidContainerId(...))`
  dispose and retry with tries + 1, else return created = true;
- `else if (containerInfo.containerId)` (JS truthiness): return created =
  false with the existing container;
- `else if (tries < this.maxContainerLookupTries && containerInfo.retryAfter > 0)`:
  wait retryAfter and retry with tries + 1;
- `else`: throw the timeout error. -/
def getOrCreateContainer (maxTries : Nat) (hasHook : Bool) :
    List IFluidContainerInfo → List Bool → List String → Nat → Outcome × List Event
  | [], _, _, _ => (.scriptEnd, [])
  | info :: lookups, trySets, newIds, tries =>
    if info.shouldCreate then
      match newIds with
      | [] => (.scriptEnd, .lookup :: .createContainer :: initHookEvents hasHook)
      | newContainerId :: newIds2 =>
        match trySets with
        | [] =>
          (.scriptEnd,
            .lookup :: .createContainer :: initHookEvents hasHook ++ [.attach newContainerId])
        | setOk :: trySets2 =>
          if setOk then
            (.success ⟨newContainerId, true⟩,
              .lookup :: .createContainer :: initHookEvents hasHook ++
                [.attach newContainerId, .trySet newContainerId true])
          else
            let r := getOrCreateContainer maxTries hasHook lookups trySets2 newIds2 (tries + 1)
            (r.1,
              .lookup :: .createContainer :: initHookEvents hasHook ++
                [.attach newContainerId, .trySet newContainerId false, .dispose] ++ r.2)
    else
      match truthyId info.containerId with
      | some containerId =>
        (.success ⟨containerId, false⟩, [.lookup, .getExisting containerId])
      | none =>
        if tries < maxTries ∧ info.retryAfter > 0 then
          let r := getOrCreateContainer maxTries hasHook lookups trySets newIds (tries + 1)
          (r.1, .lookup :: .wait info.retryAfter :: r.2)
        else
          (.timeoutError, [.lookup])

/-- Number of lookup events in a trace (invocations of the lookup
collaborator). -/
def countLookups : List Event → Nat
  | [] => 0
  | .lookup :: rest => countLookups rest + 1
  | _ :: rest => countLookups rest

/-- Number of wait events in a trace. -/
def countWaits : List Event → Nat
  | [] => 0
  | .wait _ :: rest => countWaits rest + 1
  | _ :: rest => countWaits rest

/-- The last event of a trace. -/
def lastEvent (tr : List Event) : Option Event :=
  tr.reverse.head?

/-- Checks that every lost race in a trace is handled as the source handles
it: a `trySet _ false` answer is immediately followed by `dispose`, and
whatever follows the dispose (if anything) starts with a fresh lookup. -/
def lostRaceHandled : List Event → Bool
  | [] => true
  | .trySet _ false :: rest =>
    match rest with
    | .dispose :: rest2 =>
      (match rest2 with
       | [] => true
       | .lookup :: _ => true
       | _ => false) && lostRaceHandled rest2
    | _ => false
  | _ :: rest => lostRaceHandled rest

/-- Checks the placement of the first-creation hook in a trace: when the hook
is supplied, every createContainer is immediately followed by exactly one
initHook and only then by the attach (or by the end of the trace when the
attach script is exhausted); when no hook is supplied, no initHook occurs and
createContainer is followed directly by the attach or the end of the trace. -/
def initHookPlacement (hasHook : Bool) : List Event → Bool
  | [] => true
  | .createContainer :: rest =>
    if hasHook then
      match rest with
      | .initHook :: rest2 =>
        (match rest2 with
         | [] => true
         | .attach _ :: _ => true
         | _ => false) && initHookPlacement hasHook rest2
      | _ => false
    else
      (match rest with
       | [] => true
       | .attach _ :: _ => true
       | _ => false) && initHookPlacement hasHook rest
  | .initHook :: _ => false
  | _ :: rest => initHookPlacement hasHook rest

/-- The lookup answer of the C1 scenario: shouldCreate = false, containerId
absent, retryAfter = r. -/
def stuckLookup (r : Nat) : IFluidContainerInfo :=
  { containerState := .notFound, containerId := none, shouldCreate := false, retryAfter := r }

/-! ## Concrete instances used to evaluate the theorems -/

/-- An operation whose every invocation yields the unacceptable value 0. -/
def rejectAllOp : Nat → Except String Nat := fun _ => Except.ok 0

/-- A predicate that never accepts. -/
def neverAccept : Nat → Bool := fun _ => false

/-- An operation returning its attempt index. -/
def indexOp : Nat → Except String Nat := fun i => Except.ok i

/-- A predicate accepting exactly the value 1. -/
def acceptOne : Nat → Bool := fun v => v == 1

/-- A concrete onTimeout producer. -/
def timeoutMsg : Unit → String := fun _ => "timeout"

/-- An operation that fails on its first invocation. -/
def failNowOp : Nat → Except String Nat := fun _ => Except.error "boom"

/-- A role cache with no entries. -/
def freshRolesCache : RequestCache (List UserMeetingRole) :=
  { lifetime := CACHE_LIFETIME, entries := [] }

/-- A role cache with an in-flight resolution for the key client-a. -/
def pendingRolesCache : RequestCache (List UserMeetingRole) :=
  { lifetime := CACHE_LIFETIME, entries := [("client-a", .pending 3)] }

/-- A role lookup that reports the presenter role for every client. -/
def presenterLookup : String → Except VError (List UserMeetingRole) :=
  fun _ => Except.ok ["presenter"]

/-- A registration collaborator that answers every call with the presenter
role array. -/
def okRegisterApi : String → Nat → Except VError RegisterApiResult :=
  fun _ _ => Except.ok (.roles ["presenter"])

/-! ## Theorems: bounded backoff poller -/

/-- The number of operation invocations never exceeds the schedule length
plus one. -/
theorem pollUntil_attempts_le {E α : Type} (op : Nat → Except E α) (p : α → Bool)
    (t : Unit → E) : ∀ (s : List Nat) (i : Nat),
    (pollUntil op p t s i).2.2 ≤ s.length + 1 := by
  intro s
  induction s with
  | nil =>
    intro i
    cases hop : op i with
    | error e => simp [pollUntil, hop]
    | ok v => by_cases hp : p v <;> simp [pollUntil, hop, hp]
  | cons d rest ih =>
    intro i
    cases hop : op i with
    | error e => simp [pollUntil, hop]
    | ok v =>
      by_cases hp : p v
      · simp [pollUntil, hop, hp]
      · simp only [pollUntil, hop, hp, List.length_cons]
        have := ih (i + 1)
        simp only [Bool.false_eq_true, if_false]
        omega

/-- When every invocation yields an unacceptable (but successful) result, the
poll consumes the whole schedule in order and fails with the onTimeout
error after schedule.length + 1 invocations. -/
theorem pollUntil_reject_all {E α : Type} (op : Nat → Except E α) (p : α → Bool)
    (t : Unit → E) (h : ∀ j, ∃ v, op j = .ok v ∧ p v = false) :
    ∀ (s : List Nat) (i : Nat),
    pollUntil op p t s i = (.error (t ()), s, s.length + 1) := by
  intro s
  induction s with
  | nil =>
    intro i
    obtain ⟨v, hv, hp⟩ := h i
    simp [pollUntil, hv, hp]
  | cons d rest ih =>
    intro i
    obtain ⟨v, hv, hp⟩ := h i
    simp [pollUntil, hv, hp, ih (i + 1)]

/-- When the first k invocations are rejected and invocation k is accepted,
the poll returns that result having consumed exactly the first k schedule
entries, after k + 1 invocations. -/
theorem pollUntil_accept_at {E α : Type} (op : Nat → Except E α) (p : α → Bool)
    (t : Unit → E) : ∀ (k : Nat) (s : List Nat) (i : Nat) (v : α),
    (∀ j, j < k → ∃ w, op (i + j) = .ok w ∧ p w = false) →
    op (i + k) = .ok v → p v = true → k ≤ s.length →
    pollUntil op p t s i = (.ok v, s.take k, k + 1) := by
  intro k
  induction k with
  | zero =>
    intro s i v _ hk hp _
    simp only [Nat.add_zero] at hk
    cases s <;> simp [pollUntil, hk, hp]
  | succ k ih =>
    intro s i v hrej hk hp hlen
    obtain ⟨w, hw, hwp⟩ := hrej 0 (Nat.succ_pos k)
    simp only [Nat.add_zero] at hw
    cases s with
    | nil => simp at hlen
    | cons d rest =>
      have hshift : ∀ j, j < k → ∃ u, op (i + 1 + j) = .ok u ∧ p u = false := by
        intro j hj
        obtain ⟨u, hu, hup⟩ := hrej (j + 1) (by omega)
        exact ⟨u, by rw [show i + 1 + j = i + (j + 1) by omega]; exact hu, hup⟩
      have hk2 : op (i + 1 + k) = .ok v := by
        rw [show i + 1 + k = i + (k + 1) by omega]; exact hk
      have hrec := ih rest (i + 1) v hshift hk2 hp (by simpa using hlen)
      simp [pollUntil, hw, hwp, hrec]

/-- When the first k invocations are rejected and invocation k itself fails,
the failure propagates at once: the result is that failure, no schedule entry
beyond the k consumed by the earlier rejections is used, and no further
invocation happens. -/
theorem pollUntil_fail_at {E α : Type} (op : Nat → Except E α) (p : α → Bool)
    (t : Unit → E) : ∀ (k : Nat) (s : List Nat) (i : Nat) (e : E),
    (∀ j, j < k → ∃ w, op (i + j) = .ok w ∧ p w = false) →
    op (i + k) = .error e → k ≤ s.length →
    pollUntil op p t s i = (.error e, s.take k, k + 1) := by
  intro k
  induction k with
  | zero =>
    intro s i e _ hk _
    simp only [Nat.add_zero] at hk
    cases s <;> simp [pollUntil, hk]
  | succ k ih =>
    intro s i e hrej hk hlen
    obtain ⟨w, hw, hwp⟩ := hrej 0 (Nat.succ_pos k)
    simp only [Nat.add_zero] at hw
    cases s with
    | nil => simp at hlen
    | cons d rest =>
      have hshift : ∀ j, j < k → ∃ u, op (i + 1 + j) = .ok u ∧ p u = false := by
        intro j hj
        obtain ⟨u, hu, hup⟩ := hrej (j + 1) (by omega)
        exact ⟨u, by rw [show i + 1 + j = i + (j + 1) by omega]; exact hu, hup⟩
      have hk2 : op (i + 1 + k) = .error e := by
        rw [show i + 1 + k = i + (k + 1) by omega]; exact hk
      have hrec := ih rest (i + 1) e hshift hk2 (by simpa using hlen)
      simp [pollUntil, hw, hwp, hrec]

/-- An error coming out of the poll is either a failure of some invocation of
the operation or the onTimeout error. -/
theorem pollUntil_error_source {E α : Type} (op : Nat → Except E α) (p : α → Bool)
    (t : Unit → E) : ∀ (s : List Nat) (i : Nat) (e : E),
    (pollUntil op p t s i).1 = .error e → (∃ j, op j = .error e) ∨ e = t () := by
  intro s
  induction s with
  | nil =>
    intro i e
    cases hop : op i with
    | error e2 =>
      simp only [pollUntil, hop]
      intro h
      simp at h
      subst h
      exact .inl ⟨i, hop⟩
    | ok v =>
      by_cases hp : p v
      · simp [pollUntil, hop, hp]
      · simp only [pollUntil, hop, hp, Bool.false_eq_true, if_false]
        intro h
        simp at h
        exact .inr h.symm
  | cons d rest ih =>
    intro i e
    cases hop : op i with
    | error e2 =>
      simp only [pollUntil, hop]
      intro h
      simp at h
      subst h
      exact .inl ⟨i, hop⟩
    | ok v =>
      by_cases hp : p v
      · simp [pollUntil, hop, hp]
      · simp only [pollUntil, hop, hp, Bool.false_eq_true, if_false]
        intro h
        exact ih (i + 1) e h

/-- Claim C5: for every schedule, pollUntil performs at most
schedule.length + 1 invocations of the operation; with a predicate that never
accepts (and an operation whose invocations all yield results) it performs
exactly schedule.length waits, consumed in schedule order, then fails with the
error produced by onTimeout; with a predicate that first accepts on invocation
k (0-based, so attempt k + 1) it returns that invocation's result after
exactly k waits. -/
theorem pollUntil_schedule_contract {E α : Type} (op : Nat → Except E α) (p : α → Bool)
    (t : Unit → E) (s : List Nat) :
    (pollUntil op p t s 0).2.2 ≤ s.length + 1 ∧
    ((∀ j, ∃ v, op j = .ok v ∧ p v = false) →
      pollUntil op p t s 0 = (.error (t ()), s, s.length + 1)) ∧
    (∀ (k : Nat) (v : α), (∀ j, j < k → ∃ w, op j = .ok w ∧ p w = false) →
      op k = .ok v → p v = true → k ≤ s.length →
      pollUntil op p t s 0 = (.ok v, s.take k, k + 1)) := by
  refine ⟨pollUntil_attempts_le op p t s 0, fun h => pollUntil_reject_all op p t h s 0, ?_⟩
  intro k v hrej hk hp hlen
  refine pollUntil_accept_at op p t k s 0 v ?_ (by simpa using hk) hp hlen
  intro j hj
  simpa using hrej j hj

/-- Claim C5 witness: with schedule [100, 200], a never-accepting predicate
fails with the timeout error after both waits and 3 attempts, and a predicate
that first accepts on the second attempt returns after one wait. -/
theorem pollUntil_schedule_contract_witness :
    pollUntil rejectAllOp neverAccept timeoutMsg [100, 200] 0 =
      (.error "timeout", [100, 200], 3) ∧
    pollUntil indexOp acceptOne timeoutMsg [100, 200] 0 = (.ok 1, [100], 2) := by
  constructor
  · exact (pollUntil_schedule_contract rejectAllOp neverAccept timeoutMsg [100, 200]).2.1
      (fun j => ⟨0, rfl, rfl⟩)
  · have h := (pollUntil_schedule_contract indexOp acceptOne timeoutMsg [100, 200]).2.2 1 1
      (fun j hj => ⟨j, rfl, by
        have h0 : j = 0 := Nat.lt_one_iff.mp hj
        rw [h0]
        rfl⟩)
      rfl rfl (by decide)
    simpa using h

/-- Claim C8: when an invocation of the operation itself fails (after k
rejected attempts), the failure propagates to the caller immediately: the
result is exactly that failure, only the k schedule entries consumed by the
earlier rejections were used, and no further invocation occurs. -/
theorem pollUntil_failure_propagates {E α : Type} (op : Nat → Except E α) (p : α → Bool)
    (t : Unit → E) (s : List Nat) (k : Nat) (e : E)
    (hrej : ∀ j, j < k → ∃ w, op j = .ok w ∧ p w = false)
    (hfail : op k = .error e) (hlen : k ≤ s.length) :
    pollUntil op p t s 0 = (.error e, s.take k, k + 1) := by
  refine pollUntil_fail_at op p t k s 0 e ?_ (by simpa using hfail) hlen
  intro j hj
  simpa using hrej j hj

/-- Claim C8 witness: an operation failing on its very first invocation makes
pollUntil fail at once, with no wait and a single attempt. -/
theorem pollUntil_failure_propagates_witness :
    pollUntil failNowOp neverAccept timeoutMsg [100, 200] 0 = (.error "boom", [], 1) := by
  have h := pollUntil_failure_propagates failNowOp neverAccept timeoutMsg [100, 200] 0 "boom"
    (fun j hj => absurd hj (by omega)) rfl (by decide)
  simpa using h

/-! ## Theorems: single-flight TTL cache -/

/-- Updating a key makes it findable with the written entry. -/
theorem findEntry_setEntry_self {α : Type} (l : List (String × EntryState α)) (key : String)
    (e : EntryState α) : findEntry (setEntry l key e) key = some e := by
  induction l with
  | nil => simp [setEntry, findEntry]
  | cons kv rest ih =>
    obtain ⟨k, e0⟩ := kv
    by_cases h : k = key
    · simp [setEntry, h, findEntry]
    · simp [setEntry, h, findEntry, ih]

/-- Removing a key leaves no entry for it. -/
theorem findEntry_removeEntry_self {α : Type} (l : List (String × EntryState α)) (key : String) :
    findEntry (removeEntry l key) key = none := by
  induction l with
  | nil => simp [removeEntry, findEntry]
  | cons kv rest ih =>
    obtain ⟨k, e0⟩ := kv
    by_cases h : k = key
    · simp [removeEntry, h, ih]
    · simp [removeEntry, h, findEntry, ih]

/-- Arrivals at a key with an in-flight resolution start no producer; they
only grow the waiter count of the shared future. -/
theorem arriveMany_pending {α : Type} (key : String) (now : Nat) :
    ∀ (n : Nat) (c : RequestCache α) (w : Nat),
    findEntry c.entries key = some (.pending w) →
    (arriveMany key now c n).1 = 0 ∧
    findEntry (arriveMany key now c n).2.entries key = some (.pending (w + n)) := by
  intro n
  induction n with
  | zero => intro c w h; constructor <;> simp [arriveMany, h]
  | succ n ih =>
    intro c w h
    obtain ⟨ih1, ih2⟩ :=
      ih { c with entries := setEntry c.entries key (.pending (w + 1)) } (w + 1)
        (findEntry_setEntry_self _ _ _)
    constructor
    · simpa [arriveMany, startRequest, h] using ih1
    · have hadd : w + 1 + n = w + (n + 1) := by omega
      rw [← hadd]
      simpa [arriveMany, startRequest, h] using ih2

/-- Completing the in-flight resolution of a key delivers the single outcome
to exactly its registered waiters. -/
theorem completeRequest_count {α : Type} (c : RequestCache α) (key : String)
    (res : Except VError α) (now : Nat) (w : Nat)
    (h : findEntry c.entries key = some (.pending w)) :
    (completeRequest c key res now).1 = w := by
  cases res <;> simp [completeRequest, h]

/-- Claim C4: when n callers for the same key all arrive before the producer
resolves (starting from a cache with no entry for the key), exactly one
producer is started, the n callers are all registered as waiters on that one
shared future, and upon completion the one outcome (the same success value or
the same failure) is delivered to all n of them. -/
theorem requestCache_single_flight {α : Type} (c : RequestCache α) (key : String) (now : Nat)
    (n : Nat) (h : findEntry c.entries key = none) (hn : 1 ≤ n) :
    (arriveMany key now c n).1 = 1 ∧
    findEntry (arriveMany key now c n).2.entries key = some (.pending n) ∧
    ∀ (res : Except VError α) (now2 : Nat),
      (completeRequest (arriveMany key now c n).2 key res now2).1 = n := by
  obtain ⟨m, rfl⟩ : ∃ m, n = m + 1 := ⟨n - 1, by omega⟩
  obtain ⟨hp1, hp2⟩ :=
    arriveMany_pending key now m { c with entries := setEntry c.entries key (.pending 1) } 1
      (findEntry_setEntry_self _ _ _)
  have hadd : 1 + m = m + 1 := by omega
  rw [hadd] at hp2
  have h1 : (arriveMany key now c (m + 1)).1 = 1 := by
    simpa [arriveMany, startRequest, h] using hp1
  have h2 : findEntry (arriveMany key now c (m + 1)).2.entries key = some (.pending (m + 1)) := by
    simpa [arriveMany, startRequest, h] using hp2
  exact ⟨h1, h2, fun res now2 => completeRequest_count _ key res now2 _ h2⟩

/-- Claim C4 witness: two callers arriving at a fresh cache start one
producer, and the completion outcome is delivered to both. -/
theorem requestCache_single_flight_witness :
    (arriveMany "client-a" 0 freshRolesCache 2).1 = 1 ∧
    findEntry (arriveMany "client-a" 0 freshRolesCache 2).2.entries "client-a" =
      some (.pending 2) ∧
    ∀ (res : Except VError (List UserMeetingRole)) (now2 : Nat),
      (completeRequest (arriveMany "client-a" 0 freshRolesCache 2).2 "client-a" res now2).1 = 2 :=
  requestCache_single_flight freshRolesCache "client-a" 0 2 rfl (by omega)

/-- Claim C7: when the producer for a key fails, the failure is delivered to
the registered waiters but not memoized: the in-flight marker is cleared (the
key has no entry afterwards), so the next call for that key starts the
producer again from scratch. -/
theorem requestCache_failure_not_memoized {α : Type} (c : RequestCache α) (key : String)
    (err : VError) (now now2 : Nat) (w : Nat)
    (h : findEntry c.entries key = some (.pending w)) :
    (completeRequest c key (.error err) now).1 = w ∧
    findEntry (completeRequest c key (.error err) now).2.entries key = none ∧
    (startRequest (completeRequest c key (.error err) now).2 key now2).1 = .producerStarted := by
  refine ⟨completeRequest_count c key _ now w h, ?_, ?_⟩
  · simp [completeRequest, h, findEntry_removeEntry_self]
  · simp [startRequest, completeRequest, h, findEntry_removeEntry_self]

/-- Claim C7 witness: failing the in-flight resolution of client-a clears the
entry and the next arrival starts the producer anew. -/
theorem requestCache_failure_not_memoized_witness :
    (completeRequest pendingRolesCache "client-a" (.error (.upstream "transport")) 0).1 = 3 ∧
    findEntry (completeRequest pendingRolesCache "client-a"
        (.error (.upstream "transport")) 0).2.entries "client-a" = none ∧
    (startRequest (completeRequest pendingRolesCache "client-a"
        (.error (.upstream "transport")) 0).2 "client-a" 1).1 = .producerStarted :=
  requestCache_failure_not_memoized pendingRolesCache "client-a" (.upstream "transport") 0 1 3 rfl

/-! ## Theorems: role verification service -/

/-- The membership loop of verifyRolesAllowed accepts exactly when some
allowed role belongs to the client's roles. -/
theorem checkAllowedLoop_iff (roles : List UserMeetingRole) :
    ∀ (l : List UserMeetingRole),
    checkAllowedLoop roles l = true ↔ ∃ r, r ∈ l ∧ r ∈ roles := by
  intro l
  induction l with
  | nil => simp [checkAllowedLoop]
  | cons a rest ih =>
    by_cases h : roles.contains a
    · simp only [checkAllowedLoop, if_pos h, true_iff]
      exact ⟨a, List.mem_cons_self a rest, by simpa using h⟩
    · simp only [checkAllowedLoop, if_neg h]
      rw [ih]
      constructor
      · rintro ⟨r, hr, hr2⟩
        exact ⟨r, List.mem_cons_of_mem a hr, hr2⟩
      · rintro ⟨r, hr, hr2⟩
        rcases List.mem_cons.mp hr with rfl | hr3
        · exact absurd (List.elem_iff.mpr hr2) h
        · exact ⟨r, hr3, hr2⟩

/-- Claim C6: verifyRolesAllowed fails with the invalid-argument error on an
empty clientId; for a non-empty clientId it returns true without consulting
the role lookup when allowedRoles is absent or empty; otherwise it consults
the (cached) lookup and returns true exactly when some allowed role is among
the client's roles. -/
theorem verifyRolesAllowed_contract
    (lookupRoles : String → Except VError (List UserMeetingRole)) (clientId : String)
    (l roles : List UserMeetingRole) :
    (∀ allowedRoles, verifyRolesAllowed lookupRoles "" allowedRoles =
      (.error (.invalidArgument "RoleVerifier: called verifyRolesAllowed() without a clientId"),
        false)) ∧
    (clientId ≠ "" →
      verifyRolesAllowed lookupRoles clientId none = (.ok true, false) ∧
      verifyRolesAllowed lookupRoles clientId (some []) = (.ok true, false)) ∧
    (clientId ≠ "" → l ≠ [] → lookupRoles clientId = .ok roles →
      verifyRolesAllowed lookupRoles clientId (some l) = (.ok (checkAllowedLoop roles l), true) ∧
      (verifyRolesAllowed lookupRoles clientId (some l) = (.ok true, true) ↔
        ∃ r, r ∈ l ∧ r ∈ roles)) := by
  refine ⟨?_, ?_, ?_⟩
  · intro allowedRoles
    simp [verifyRolesAllowed]
  · intro h
    constructor <;> simp [verifyRolesAllowed, h]
  · intro h hl hlk
    have hlen : 0 < l.length := List.length_pos.mpr hl
    have heq : verifyRolesAllowed lookupRoles clientId (some l) =
        (.ok (checkAllowedLoop roles l), true) := by
      simp [verifyRolesAllowed, h, hlen, hlk]
    refine ⟨heq, ?_⟩
    rw [heq, ← checkAllowedLoop_iff roles l]
    constructor
    · intro hx
      simpa using congrArg (fun q => q.1) hx
    · intro hx
      rw [hx]

/-- Claim C6 witness: the three branches evaluated at concrete inputs (the
empty clientId, an unrestricted call, and a presenter check against a
presenter). -/
theorem verifyRolesAllowed_contract_witness :
    (verifyRolesAllowed presenterLookup "" (some ["presenter"]) =
      (.error (.invalidArgument "RoleVerifier: called verifyRolesAllowed() without a clientId"),
        false)) ∧
    verifyRolesAllowed presenterLookup "client-a" none = (.ok true, false) ∧
    verifyRolesAllowed presenterLookup "client-a" (some []) = (.ok true, false) ∧
    (verifyRolesAllowed presenterLookup "client-a" (some ["presenter"]) = (.ok true, true) ↔
      ∃ r, r ∈ ["presenter"] ∧ r ∈ ["presenter"]) := by
  obtain ⟨h1, h2, h3⟩ :=
    verifyRolesAllowed_contract presenterLookup "client-a" ["presenter"] ["presenter"]
  obtain ⟨h4, h5⟩ := h2 (by decide)
  obtain ⟨h6, h7⟩ := h3 (by decide) (by decide) rfl
  exact ⟨h1 (some ["presenter"]), h4, h5, h7⟩

/-- Errors coming out of the registration producer are either upstream
failures of the collaborator or the registration timeout; the producer never
synthesizes an invalid-argument error. -/
theorem registerProducer_error_source (api : Nat → Except VError RegisterApiResult)
    (e : VError) (h : registerProducer api () = .error e) :
    (∃ j, api j = .error e) ∨
      e = .timeout "RoleVerifier: timed out registering local client ID" := by
  unfold registerProducer at h
  cases hpoll : (pollUntil api isArray
      (fun _ => VError.timeout "RoleVerifier: timed out registering local client ID")
      EXPONENTIAL_BACKOFF_SCHEDULE 0).1 with
  | ok v => rw [hpoll] at h; simp at h
  | error e2 =>
    rw [hpoll] at h
    simp at h
    subst h
    exact pollUntil_error_source api isArray _ EXPONENTIAL_BACKOFF_SCHEDULE 0 e2 hpoll

/-- Claim C10: registerClientId performs no validation of its clientId: for
every clientId — the empty string included — it proceeds to the cache under
that key and runs the polling producer against the registration collaborator
(so it can only fail with the poll's timeout or an upstream failure, never
with an invalid-argument error), and a successful producer outcome is cached
under that clientId; getClientRoles, by contrast, rejects the empty clientId
with the invalid-argument error before any cache or collaborator work. -/
theorem registerClientId_no_validation
    (api : String → Nat → Except VError RegisterApiResult)
    (cache : RequestCache (List UserMeetingRole)) (clientId : String) (now : Nat)
    (h1 : findEntry cache.entries clientId = none)
    (h2 : ∀ i m, api clientId i ≠ .error (.invalidArgument m)) :
    (∃ c2, registerClientId cache api clientId now =
        some (registerProducer (api clientId) (), c2, true) ∧
      (∀ v, registerProducer (api clientId) () = .ok v →
        findEntry c2.entries clientId = some (.ready v (now + cache.lifetime)))) ∧
    (∀ m, registerProducer (api clientId) () ≠ .error (.invalidArgument m)) ∧
    getClientRoles cache api "" now =
      some (.error (.invalidArgument "RoleVerifier: called getCLientRoles() without a clientId"),
        cache, false) := by
  refine ⟨?_, ?_, by simp [getClientRoles]⟩
  · refine ⟨(completeRequest { cache with entries := setEntry cache.entries clientId (.pending 1) }
        clientId (registerProducer (api clientId) ()) now).2, ?_, ?_⟩
    · simp [registerClientId, cacheRequest, startRequest, h1]
    · intro v hv
      simp [completeRequest, hv, findEntry_setEntry_self]
  · intro m hcontra
    rcases registerProducer_error_source (api clientId) _ hcontra with ⟨j, hj⟩ | he
    · exact h2 j m hj
    · simp at he

/-- Claim C10 witness: with a fresh cache and a collaborator that answers
with a role array, registerClientId called with the empty clientId proceeds
(it is the cache-and-poll path, not an invalid-argument failure), while
getClientRoles with the empty clientId fails fast. -/
theorem registerClientId_no_validation_witness :
    (∃ c2, registerClientId freshRolesCache okRegisterApi "" 0 =
        some (registerProducer (okRegisterApi "") (), c2, true) ∧
      (∀ v, registerProducer (okRegisterApi "") () = .ok v →
        findEntry c2.entries "" = some (.ready v (0 + freshRolesCache.lifetime)))) ∧
    (∀ m, registerProducer (okRegisterApi "") () ≠ .error (.invalidArgument m)) ∧
    getClientRoles freshRolesCache okRegisterApi "" 0 =
      some (.error (.invalidArgument "RoleVerifier: called getCLientRoles() without a clientId"),
        freshRolesCache, false) :=
  registerClientId_no_validation okRegisterApi freshRolesCache "" 0 rfl
    (fun i m => by simp [okRegisterApi])

/-! ## Theorems: resource-creation coordinator -/

/-- Every coordinator trace is empty or begins with a lookup: each round of
the loop starts by consulting the lookup collaborator. -/
theorem getOrCreateContainer_trace_head (maxTries : Nat) (hasHook : Bool)
    (lookups : List IFluidContainerInfo) (trySets : List Bool) (newIds : List String)
    (tries : Nat) :
    (getOrCreateContainer maxTries hasHook lookups trySets newIds tries).2 = [] ∨
    (getOrCreateContainer maxTries hasHook lookups trySets newIds tries).2.head? =
      some .lookup := by
  cases lookups with
  | nil => left; rfl
  | cons info rest =>
    right
    simp only [getOrCreateContainer]
    by_cases hsc : info.shouldCreate
    · simp only [hsc, if_true]
      cases newIds with
      | nil => simp
      | cons nid nids =>
        cases trySets with
        | nil => simp
        | cons setOk ts =>
          by_cases hok : setOk
          · simp [hok]
          · simp [hok]
    · simp only [hsc, Bool.false_eq_true, if_false]
      cases htid : truthyId info.containerId with
      | some cid => simp [htid]
      | none =>
        by_cases hc : tries < maxTries ∧ info.retryAfter > 0
        · simp [htid, hc]
        · simp [htid, hc]

/-- Claim C1 (amended): against a lookup collaborator that always answers
shouldCreate = false, containerId absent, retryAfter = r > 0, the join fails
with the timeout error after maxContainerLookupTries waits, and the lookup
collaborator is invoked exactly maxContainerLookupTries + 1 times (4 with the
default of 3): the full trace is lookup, wait, lookup, wait, lookup, wait,
lookup. -/
theorem lookupRetry_exhaustion (j r : Nat) (trySets : List Bool) (newIds : List String)
    (hr : 0 < r) :
    getOrCreateContainer maxContainerLookupTries false
        (List.replicate (j + 4) (stuckLookup r)) trySets newIds 0 =
      (.timeoutError, [.lookup, .wait r, .lookup, .wait r, .lookup, .wait r, .lookup]) := by
  rw [show j + 4 = (j + 3) + 1 from rfl, show j + 3 = (j + 2) + 1 from rfl,
    show j + 2 = (j + 1) + 1 from rfl]
  simp [List.replicate_succ, getOrCreateContainer, stuckLookup, truthyId,
    maxContainerLookupTries, hr]

/-- Claim C1 counterexample: in the very scenario of the claim (default
maxContainerLookupTries = 3, lookup always answering shouldCreate = false,
containerId absent, retryAfter = 50), the join does fail with the timeout
error, but the lookup collaborator is invoked 4 times, not
maxContainerLookupTries = 3 times. -/
theorem lookupRetry_counterexample :
    (getOrCreateContainer maxContainerLookupTries false
        (List.replicate 10 (stuckLookup 50)) [] [] 0).1 = .timeoutError ∧
    countLookups (getOrCreateContainer maxContainerLookupTries false
        (List.replicate 10 (stuckLookup 50)) [] [] 0).2 = 4 ∧
    countLookups (getOrCreateContainer maxContainerLookupTries false
        (List.replicate 10 (stuckLookup 50)) [] [] 0).2 ≠ maxContainerLookupTries := by
  refine ⟨?_, ?_, ?_⟩ <;> decide

/-- Claim C1 witness: the amended statement evaluated at the concrete scenario
(10 stuck lookups available, retryAfter = 50). -/
theorem lookupRetry_exhaustion_witness :
    getOrCreateContainer maxContainerLookupTries false
        (List.replicate 10 (stuckLookup 50)) [] [] 0 =
      (.timeoutError, [.lookup, .wait 50, .lookup, .wait 50, .lookup, .wait 50, .lookup]) :=
  lookupRetry_exhaustion 6 50 [] [] (by omega)

/-- The last event of a trace is unchanged by prepending earlier events. -/
theorem lastEvent_append (xs ys : List Event) (a : Event) (h : lastEvent ys = some a) :
    lastEvent (xs ++ ys) = some a := by
  unfold lastEvent at *
  rw [List.reverse_append]
  cases hys : ys.reverse with
  | nil => rw [hys] at h; simp at h
  | cons b t =>
    rw [hys] at h
    simp at h
    subst h
    simp

/-- Every successful coordinator run ends either with a winning conditional
publish (when created is true) or with the opening of an existing container
(when created is false), for the very containerId it returns. -/
theorem getOrCreateContainer_last (maxTries : Nat) (hasHook : Bool) :
    ∀ (lookups : List IFluidContainerInfo) (trySets : List Bool) (newIds : List String)
      (tries : Nat) (res : JoinResult) (tr : List Event),
    getOrCreateContainer maxTries hasHook lookups trySets newIds tries = (.success res, tr) →
    lastEvent tr =
      some (if res.created then .trySet res.containerId true
            else .getExisting res.containerId) := by
  intro lookups
  induction lookups with
  | nil =>
    intro trySets newIds tries res tr
    simp only [getOrCreateContainer]
    intro h
    simp at h
  | cons info rest ih =>
    intro trySets newIds tries res tr
    simp only [getOrCreateContainer]
    by_cases hsc : info.shouldCreate
    · simp only [hsc, if_true]
      cases newIds with
      | nil => intro h; simp at h
      | cons nid nids =>
        cases trySets with
        | nil => intro h; simp at h
        | cons setOk ts =>
          by_cases hok : setOk
          · simp only [hok, if_true]
            intro h
            simp only [Prod.mk.injEq, Outcome.success.injEq] at h
            obtain ⟨h1, h2⟩ := h
            subst h1
            subst h2
            have hinner := lastEvent_append (initHookEvents hasHook)
              [Event.attach nid, Event.trySet nid true] (Event.trySet nid true) rfl
            have houter := lastEvent_append [Event.lookup, Event.createContainer] _ _ hinner
            simpa using houter
          · simp only [hok, Bool.false_eq_true, if_false]
            intro h
            rcases hg : getOrCreateContainer maxTries hasHook rest ts nids (tries + 1)
              with ⟨o, tr2⟩
            rw [hg] at h
            simp only [Prod.mk.injEq] at h
            obtain ⟨h1, h2⟩ := h
            subst h1
            subst h2
            have hlast := ih ts nids (tries + 1) res tr2 (by rw [hg])
            exact lastEvent_append [Event.lookup, Event.createContainer] _ _
              (lastEvent_append _ tr2 _ hlast)
    · simp only [hsc, Bool.false_eq_true, if_false]
      cases htid : truthyId info.containerId with
      | some cid =>
        simp only []
        intro h
        simp only [Prod.mk.injEq, Outcome.success.injEq] at h
        obtain ⟨h1, h2⟩ := h
        subst h1
        subst h2
        simp [lastEvent]
      | none =>
        by_cases hc : tries < maxTries ∧ info.retryAfter > 0
        · rw [if_pos hc]
          intro h
          rcases hg : getOrCreateContainer maxTries hasHook rest trySets newIds (tries + 1)
            with ⟨o, tr2⟩
          rw [hg] at h
          simp only [Prod.mk.injEq] at h
          obtain ⟨h1, h2⟩ := h
          subst h1
          subst h2
          have hlast := ih trySets newIds (tries + 1) res tr2 (by rw [hg])
          exact lastEvent_append [Event.lookup, Event.wait info.retryAfter] tr2 _ hlast
        · rw [if_neg hc]
          intro h
          simp at h

/-- Claim C2: a successful join has created = true exactly when its run ended
with this call winning the conditional publish of the containerId it returns,
and created = false exactly when its run ended by opening the existing
container with that containerId. -/
theorem created_flag_contract (maxTries : Nat) (hasHook : Bool)
    (lookups : List IFluidContainerInfo) (trySets : List Bool) (newIds : List String)
    (tries : Nat) (res : JoinResult) (tr : List Event)
    (h : getOrCreateContainer maxTries hasHook lookups trySets newIds tries =
      (.success res, tr)) :
    (res.created = true ↔ lastEvent tr = some (.trySet res.containerId true)) ∧
    (res.created = false ↔ lastEvent tr = some (.getExisting res.containerId)) := by
  have hlast := getOrCreateContainer_last maxTries hasHook lookups trySets newIds tries res tr h
  by_cases hcr : res.created = true
  · simp only [hcr, if_true] at hlast
    refine ⟨⟨fun _ => hlast, fun _ => hcr⟩, ?_, ?_⟩
    · intro hf
      rw [hcr] at hf
      exact absurd hf (by simp)
    · intro hx
      rw [hlast] at hx
      simp at hx
  · have hcf : res.created = false := by revert hcr; cases res.created <;> simp
    simp only [hcf, Bool.false_eq_true, if_false] at hlast
    refine ⟨⟨fun ht => absurd ht hcr, ?_⟩, fun _ => hlast, fun _ => hcf⟩
    intro hx
    rw [hlast] at hx
    simp at hx

/-- Claim C2 witness: a run that wins the publish returns created = true and
its trace ends with the winning trySet; the iff pair evaluated there. -/
theorem created_flag_contract_witness :
    ((⟨"c1", true⟩ : JoinResult).created = true ↔
      lastEvent [.lookup, .createContainer, .attach "c1", .trySet "c1" true] =
        some (.trySet "c1" true)) ∧
    ((⟨"c1", true⟩ : JoinResult).created = false ↔
      lastEvent [.lookup, .createContainer, .attach "c1", .trySet "c1" true] =
        some (.getExisting "c1")) :=
  created_flag_contract 3 false [⟨.notFound, none, true, 0⟩] [true] ["c1"] 0 ⟨"c1", true⟩
    [.lookup, .createContainer, .attach "c1", .trySet "c1" true] rfl

/-- Evaluates the lost-race checker through the events of one losing creation
round, reducing it to the checker on the continuation trace. -/
theorem lostRaceHandled_chunk (hasHook : Bool) (nid : String) (tr2 : List Event)
    (hhead : tr2 = [] ∨ tr2.head? = some Event.lookup)
    (htr : lostRaceHandled tr2 = true) :
    lostRaceHandled (Event.lookup :: Event.createContainer ::
      (initHookEvents hasHook ++
        [Event.attach nid, Event.trySet nid false, Event.dispose] ++ tr2)) = true := by
  rcases hhead with he | he
  · subst he
    cases hasHook <;> simp [lostRaceHandled, initHookEvents]
  · cases tr2 with
    | nil => simp at he
    | cons b t =>
      simp at he
      subst he
      cases hasHook <;> simpa [lostRaceHandled, initHookEvents] using htr

/-- Every coordinator trace handles every lost race by an immediate dispose
followed (when the run continues) by a fresh lookup. -/
theorem lostRaceHandled_run (maxTries : Nat) (hasHook : Bool) :
    ∀ (lookups : List IFluidContainerInfo) (trySets : List Bool) (newIds : List String)
      (tries : Nat),
    lostRaceHandled (getOrCreateContainer maxTries hasHook lookups trySets newIds tries).2 =
      true := by
  intro lookups
  induction lookups with
  | nil => intro trySets newIds tries; rfl
  | cons info rest ih =>
    intro trySets newIds tries
    simp only [getOrCreateContainer]
    by_cases hsc : info.shouldCreate
    · simp only [hsc, if_true]
      cases newIds with
      | nil => cases hasHook <;> simp [lostRaceHandled, initHookEvents]
      | cons nid nids =>
        cases trySets with
        | nil => cases hasHook <;> simp [lostRaceHandled, initHookEvents]
        | cons setOk ts =>
          by_cases hok : setOk
          · simp only [hok, if_true]
            cases hasHook <;> simp [lostRaceHandled, initHookEvents]
          · have hok2 : setOk = false := by revert hok; cases setOk <;> simp
            subst hok2
            simp only [Bool.false_eq_true, if_false]
            rcases hg : getOrCreateContainer maxTries hasHook rest ts nids (tries + 1)
              with ⟨o, tr2⟩
            have hhead := getOrCreateContainer_trace_head maxTries hasHook rest ts nids (tries + 1)
            rw [hg] at hhead
            have ihr := ih ts nids (tries + 1)
            rw [hg] at ihr
            exact lostRaceHandled_chunk hasHook nid tr2 hhead ihr
    · simp only [hsc, Bool.false_eq_true, if_false]
      cases htid : truthyId info.containerId with
      | some cid => simp [lostRaceHandled]
      | none =>
        by_cases hc : tries < maxTries ∧ info.retryAfter > 0
        · rw [if_pos hc]
          rcases hg : getOrCreateContainer maxTries hasHook rest trySets newIds (tries + 1)
            with ⟨o, tr2⟩
          have ihr := ih trySets newIds (tries + 1)
          rw [hg] at ihr
          simpa [lostRaceHandled] using ihr
        · rw [if_neg hc]
          rfl

/-- Claim C3: a creation round whose conditional publish answers false
disposes the locally created container, increments the try count, and hands
control back to a fresh lookup: the run's outcome is exactly the outcome of
the continuation (the lost race surfaces no error of its own), and in every
coordinator trace a losing trySet is immediately followed by dispose and then
(if the run continues at all) by a lookup. -/
theorem lostRace_unwind (maxTries : Nat) (hasHook : Bool) (info : IFluidContainerInfo)
    (lookups : List IFluidContainerInfo) (trySets2 : List Bool) (newIds2 : List String)
    (newContainerId : String) (tries : Nat) (hsc : info.shouldCreate = true) :
    getOrCreateContainer maxTries hasHook (info :: lookups) (false :: trySets2)
        (newContainerId :: newIds2) tries =
      ((getOrCreateContainer maxTries hasHook lookups trySets2 newIds2 (tries + 1)).1,
        Event.lookup :: Event.createContainer ::
          (initHookEvents hasHook ++
            [Event.attach newContainerId, Event.trySet newContainerId false, Event.dispose] ++
            (getOrCreateContainer maxTries hasHook lookups trySets2 newIds2 (tries + 1)).2)) ∧
    (∀ (lookups2 : List IFluidContainerInfo) (trySets3 : List Bool) (newIds3 : List String)
      (tries2 : Nat),
      lostRaceHandled
        (getOrCreateContainer maxTries hasHook lookups2 trySets3 newIds3 tries2).2 = true) := by
  constructor
  · simp [getOrCreateContainer, hsc]
  · exact lostRaceHandled_run maxTries hasHook

/-- Claim C3 witness: a concrete lost race (creation answered by a false
publish) disposes and then attaches to the winner, with no error surfaced. -/
theorem lostRace_unwind_witness :
    getOrCreateContainer 3 false
        [⟨.notFound, none, true, 0⟩, ⟨.alreadyExists, some "w", false, 0⟩] [false] ["l1"] 0 =
      (.success ⟨"w", false⟩,
        [.lookup, .createContainer, .attach "l1", .trySet "l1" false, .dispose,
          .lookup, .getExisting "w"]) ∧
    lostRaceHandled (getOrCreateContainer 3 false
        [⟨.notFound, none, true, 0⟩, ⟨.alreadyExists, some "w", false, 0⟩]
        [false] ["l1"] 0).2 = true := by
  obtain ⟨h1, h2⟩ := lostRace_unwind 3 false ⟨.notFound, none, true, 0⟩
    [⟨.alreadyExists, some "w", false, 0⟩] [] [] "l1" 0 rfl
  exact ⟨h1, h2 [⟨.notFound, none, true, 0⟩, ⟨.alreadyExists, some "w", false, 0⟩]
    [false] ["l1"] 0⟩

/-- Claim C9: in every coordinator run, each execution of the creation branch
runs the optional first-creation hook exactly once, immediately after the
local creation and strictly before the attach that publishes the container
(and when no hook is supplied, no hook event ever occurs): the placement
checker accepts every trace. -/
theorem initHook_once_before_attach (maxTries : Nat) (hasHook : Bool) :
    ∀ (lookups : List IFluidContainerInfo) (trySets : List Bool) (newIds : List String)
      (tries : Nat),
    initHookPlacement hasHook
      (getOrCreateContainer maxTries hasHook lookups trySets newIds tries).2 = true := by
  intro lookups
  induction lookups with
  | nil => intro trySets newIds tries; rfl
  | cons info rest ih =>
    intro trySets newIds tries
    simp only [getOrCreateContainer]
    by_cases hsc : info.shouldCreate
    · simp only [hsc, if_true]
      cases newIds with
      | nil => cases hasHook <;> simp [initHookPlacement, initHookEvents]
      | cons nid nids =>
        cases trySets with
        | nil => cases hasHook <;> simp [initHookPlacement, initHookEvents]
        | cons setOk ts =>
          by_cases hok : setOk
          · simp only [hok, if_true]
            cases hasHook <;> simp [initHookPlacement, initHookEvents]
          · have hok2 : setOk = false := by revert hok; cases setOk <;> simp
            subst hok2
            simp only [Bool.false_eq_true, if_false]
            rcases hg : getOrCreateContainer maxTries hasHook rest ts nids (tries + 1)
              with ⟨o, tr2⟩
            have ihr := ih ts nids (tries + 1)
            rw [hg] at ihr
            cases hasHook <;> simpa [initHookPlacement, initHookEvents] using ihr
    · simp only [hsc, Bool.false_eq_true, if_false]
      cases htid : truthyId info.containerId with
      | some cid => simp [initHookPlacement]
      | none =>
        by_cases hc : tries < maxTries ∧ info.retryAfter > 0
        · rw [if_pos hc]
          rcases hg : getOrCreateContainer maxTries hasHook rest trySets newIds (tries + 1)
            with ⟨o, tr2⟩
          have ihr := ih trySets newIds (tries + 1)
          rw [hg] at ihr
          simpa [initHookPlacement] using ihr
        · rw [if_neg hc]
          rfl

end LiveShare
